import Mathlib

/-!
Verification development for the ai-image-engine repository.

The TypeScript sources are shallowly embedded here. Text is modelled as
`List Char` (JS strings), effectful AI / network calls are modelled by
passing their outcomes as explicit `Except` parameters, and HTML documents
are modelled as lists of nodes in which only the structure observed by the
code (paragraph elements, their text content, and the inserted placeholder
comment) is represented.
-/

namespace AIImageEngine

/-! ## String utilities (JS string behaviour over `List Char`) -/

/-- Character class of JS `\s` and `String.prototype.trim`, restricted to the
ASCII whitespace characters (the Unicode space characters never occur in the
inputs considered here). -/
def isJsWhitespace (c : Char) : Bool :=
  c = ' ' || c = '\t' || c = '\n' || c = '\r' || c = '\x0b' || c = '\x0c'

/-- Model of `String.prototype.trim`. -/
def trimChars (l : List Char) : List Char :=
  ((l.dropWhile isJsWhitespace).reverse.dropWhile isJsWhitespace).reverse

/-- Index of the first occurrence of `pat` in `text` (JS `String.prototype.indexOf`
for a pattern string), `none` when absent. -/
def findSub : List Char → List Char → Option Nat
  | [], pat => if pat.isEmpty then some 0 else none
  | c :: rest, pat =>
    if pat.isPrefixOf (c :: rest) then some 0 else (findSub rest pat).map (· + 1)

/-- Model of JS `String.prototype.includes`. -/
def containsSub (text pat : List Char) : Bool :=
  (findSub text pat).isSome

/-- Index of the first occurrence of character `c` in `text`
(JS `indexOf` for a single character). -/
def firstIdxOf (text : List Char) (c : Char) : Option Nat :=
  findSub text [c]

/-- Index of the last occurrence of character `c` in `text`
(JS `lastIndexOf`), `none` when absent. -/
def lastIdxOf : List Char → Char → Option Nat
  | [], _ => none
  | a :: rest, c =>
    match lastIdxOf rest c with
    | some i => some (i + 1)
    | none => if a = c then some 0 else none

/-- Number of (possibly overlapping) occurrences of `pat` in `text`; only used
with the placeholder comment, which cannot overlap itself. -/
def countSub : List Char → List Char → Nat
  | [], _ => 0
  | c :: rest, pat => (if pat.isPrefixOf (c :: rest) then 1 else 0) + countSub rest pat

/-! ## Provider Gateway: `retryableAIOperation` (src/services/aiService.ts:114-137) -/

/-- Errors thrown by the AI layer. `fetchError` is the `FetchError` class
(carrying an HTTP status, src/services/aiService.ts:102-107), `generic` is a
plain `Error` identified by its message, and `retriesExhausted` is the error
built at src/services/aiService.ts:136 (carrying the last error message). -/
inductive AIError where
  | fetchError (msg : List Char) (status : Nat)
  | generic (msg : List Char)
  | retriesExhausted (lastMsg : List Char)
deriving DecidableEq

/-- The `error.message` accessor used at src/services/aiService.ts:121. -/
def AIError.message : AIError → List Char
  | .fetchError m _ => m
  | .generic m => m
  | .retriesExhausted m => m

/-- Predicate of src/services/aiService.ts:122-124: a `FetchError` with status
429, or an error whose message contains `"429"` or `"RESOURCE_EXHAUSTED"`. -/
def isRateLimitError (e : AIError) : Bool :=
  (match e with
   | .fetchError _ status => status = 429
   | _ => false)
  || containsSub e.message "429".data
  || containsSub e.message "RESOURCE_EXHAUSTED".data

/-- Observable outcome of `retryableAIOperation`: the returned value or thrown
error, the number of attempts that were started, and the total time passed to
`delay` (the mock-clock backoff total). -/
structure RetryResult (T : Type) where
  result : Except AIError T
  attempts : Nat
  totalDelay : Nat

/-- Loop body of `retryableAIOperation` (src/services/aiService.ts:116-135).
`apiCall i` is the outcome of the `i`-th attempt of the wrapped operation;
`rem` is the number of loop iterations left (`retries - i`), so the recursion
is structural. On a rate-limit failure the code sleeps
`initialDelay * 2 ^ i` and retries; on any other failure it rethrows at once. -/
def retryGo {T : Type} (apiCall : Nat → Except AIError T) (initialDelay : Nat) :
    Nat → Nat → Nat → Option AIError → RetryResult T
  | 0, i, delaySoFar, lastErr =>
    ⟨.error (.retriesExhausted (match lastErr with
      | some e => e.message
      | none => [])), i, delaySoFar⟩
  | rem + 1, i, delaySoFar, _ =>
    match apiCall i with
    | .ok v => ⟨.ok v, i + 1, delaySoFar⟩
    | .error e =>
      if isRateLimitError e then
        retryGo apiCall initialDelay rem (i + 1) (delaySoFar + initialDelay * 2 ^ i) (some e)
      else ⟨.error e, i + 1, delaySoFar⟩

/-- Model of `retryableAIOperation` (src/services/aiService.ts:114-137); the
source defaults are `retries = 3`, `initialDelay = 2000`. -/
def retryableAIOperation {T : Type} (apiCall : Nat → Except AIError T)
    (retries initialDelay : Nat) : RetryResult T :=
  retryGo apiCall initialDelay retries 0 0 none

/-! ## JSON extraction: `extractJson` (src/services/aiService.ts:22-56) -/

/-- Result of the fenced-code-block regex
`/(opening fence)(?:json)?\s*([\s\S]*?)\s*(closing fence)/` applied by
`text.match` at src/services/aiService.ts:24: the captured group of the
leftmost match, or `none` when the regex does not match. Leftmost-first
matching with the lazy body group means: the match opens at the first
occurrence of three backticks, optionally consumes a literal `json` tag, and
closes at the next occurrence of three backticks; the greedy whitespace
groups around the lazy body strip the leading and trailing whitespace of the body,
so the captured group is the fenced span with surrounding whitespace removed
(hence `.trim()` at line 26 is the identity on it). -/
def fenceCapture (text : List Char) : Option (List Char) :=
  match findSub text "```".data with
  | none => none
  | some p =>
    let afterOpen := if "json".data.isPrefixOf (text.drop (p + 3))
      then p + 7 else p + 3
    match findSub (text.drop afterOpen) "```".data with
    | none => none
    | some q => some (trimChars ((text.drop afterOpen).take q))

/-- Fallback branch of `extractJson` (src/services/aiService.ts:29-55): take
the substring from the first `\x7b` or `[` (whichever comes first) to the
larger of the last `\x7d` and the last `]`, trimmed; `none` when no start
bracket exists, or no end bracket exists, or the end precedes the start. -/
def bracketExtract (text : List Char) : Option (List Char) :=
  let startIndex : Option Nat :=
    match firstIdxOf text '\x7b', firstIdxOf text '[' with
    | none, fs => fs
    | some fb, none => some fb
    | some fb, some fs => some (min fb fs)
  match startIndex with
  | none => none
  | some st =>
    let endIndex : Option Nat :=
      match lastIdxOf text '\x7d', lastIdxOf text ']' with
      | none, ls => ls
      | some lb, none => some lb
      | some lb, some ls => some (max lb ls)
    match endIndex with
    | none => none
    | some en =>
      if en < st then none
      else some (trimChars ((text.drop st).take (en + 1 - st)))

/-- Model of `extractJson` (src/services/aiService.ts:22-56). The source
returns the captured fence body only when it is truthy, i.e. a non-empty
string (line 25); otherwise it runs the bracket fallback. -/
def extractJson (text : List Char) : Option (List Char) :=
  match fenceCapture text with
  | some body => if body.isEmpty then bracketExtract text else some body
  | none => bracketExtract text

/-! ## Document model for placement
(src/services/aiService.ts:356-379 and 385-447) -/

/-- Node of a parsed post body, exposing exactly what the placement code
observes: `p` elements with their text content, other markup, and the
inserted placeholder comment. -/
inductive Node where
  | para (txt : List Char)
  | raw (html : List Char)
  | marker
deriving DecidableEq

/-- A parsed post body (`doc.body` children, flattened). -/
abbrev Doc := List Node

/-- The `doc.body.querySelectorAll(p)` paragraph list. -/
def docParagraphs (d : Doc) : List (List Char) :=
  d.filterMap fun n => match n with
    | .para t => some t
    | _ => none

/-- The placement marker `insert-image-here` HTML comment
(src/services/aiService.ts:387). -/
def placeholderText : List Char := "<!-- INSERT_IMAGE_HERE -->".data

/-- Number of placement markers occurring in a node: one for an inserted
marker node, and any textual occurrences inside raw markup (the text content
of a `p` element cannot contain an HTML comment). -/
def Node.markerCount : Node → Nat
  | .marker => 1
  | .raw h => countSub h placeholderText
  | .para _ => 0

/-- Number of placement markers occurring in a document. -/
def countMarkers (d : Doc) : Nat :=
  (d.map Node.markerCount).sum

/-- Model of `paragraphs[i].insertAdjacentHTML(afterend, placeholder)`
(src/services/aiService.ts:370, 373, 436): insert a marker node immediately
after the `i`-th paragraph element; a document without an `i`-th paragraph is
left unchanged (the call sites guard for existence). -/
def insertAfterPara : Doc → Nat → Doc
  | [], _ => []
  | .para t :: rest, 0 => .para t :: .marker :: rest
  | .para t :: rest, i + 1 => .para t :: insertAfterPara rest i
  | n :: rest, i => n :: insertAfterPara rest i

/-- Model of `insertPlaceholderHeuristically` (src/services/aiService.ts:356-379):
after the 2nd paragraph when there are more than 2, after the 1st when there
are exactly 2, after the last when only 1, prepended when there are none. -/
def insertPlaceholderHeuristically (d : Doc) : Doc :=
  if 2 < (docParagraphs d).length then insertAfterPara d 1
  else if 1 < (docParagraphs d).length then insertAfterPara d 0
  else if 0 < (docParagraphs d).length then insertAfterPara d ((docParagraphs d).length - 1)
  else .marker :: d

/-- Model of `parseInt(responseText.trim().match(/\d+/)?.[0] || 1, 10)`
(src/services/aiService.ts:426): decimal value of the first maximal digit run
of the reply, defaulting to 1 when the reply contains no digit. The result is
never `NaN` because the matched run consists of digits. -/
def parseFirstNat : List Char → Nat
  | [] => 1
  | c :: cs =>
    if c.isDigit then
      ((c :: cs).takeWhile Char.isDigit).foldl (fun acc ch => acc * 10 + (ch.toNat - 48)) 0
    else parseFirstNat cs

/-- Outcome of `getContentWithImagePlaceholder`: the rewritten document and
whether the AI placement request was issued (the `retryableAIOperation` call
at src/services/aiService.ts:425). -/
structure PlacementResult where
  doc : Doc
  aiCalled : Bool
deriving DecidableEq

/-- The paragraph index chosen from the AI reply
(src/services/aiService.ts:426-431): decimal value of the first digit run of
the trimmed reply (1 when absent), validated against the paragraph count; an
out-of-range choice falls back to the index 1, a valid choice `k` becomes the
index `k - 1`. -/
def placementTarget (d : Doc) (responseText : List Char) : Nat :=
  if parseFirstNat (trimChars responseText) < 1
      || (docParagraphs d).length < parseFirstNat (trimChars responseText) then 1
  else parseFirstNat (trimChars responseText) - 1

/-- Model of `getContentWithImagePlaceholder` (src/services/aiService.ts:385-447).
The parameter `ai` is the outcome of the placement request (the value of
`retryableAIOperation(() => generateText(...), 2, 500)` or the error it
threw); the prompt string itself (which is where the paragraph numbers of
`paragraphsToAnalyze` are used) is not modelled, so qualifying paragraphs are
kept as their trimmed text only. -/
def getContentWithImagePlaceholder (ai : Except AIError (List Char)) (d : Doc) :
    PlacementResult :=
  if (docParagraphs d).length < 3 then ⟨insertPlaceholderHeuristically d, false⟩
  else if ((((docParagraphs d).take 5).map trimChars).filter
      fun t => 80 < t.length).length < 2 then
    ⟨insertPlaceholderHeuristically d, false⟩
  else
    match ai with
    | .error _ => ⟨insertPlaceholderHeuristically d, true⟩
    | .ok responseText =>
      if placementTarget d responseText < (docParagraphs d).length then
        ⟨insertAfterPara d (placementTarget d responseText), true⟩
      else ⟨insertPlaceholderHeuristically d, true⟩

/-! ## Backlog priority sort (src/App.tsx:66-70) -/

/-- The fields of a crawled WordPress post observed by the backlog sort. -/
structure WPPost where
  id : Nat
  featured_media : Nat
  imageCount : Nat
deriving DecidableEq

/-- The score computed inside the comparator at src/App.tsx:67-68. -/
def postScore (p : WPPost) : Int :=
  (if p.featured_media = 0 then 1000 else 0) + (100 - (p.imageCount : Int))

/-- Order produced by the comparator `(a, b) => bScore - aScore`
(src/App.tsx:69): `a` may precede `b` exactly when the comparator is
non-positive, i.e. descending score. -/
def backlogLE (a b : WPPost) : Prop :=
  postScore b ≤ postScore a

instance : DecidableRel backlogLE := fun a b => Int.decLe (postScore b) (postScore a)

instance : IsTotal WPPost backlogLE :=
  ⟨fun a b => le_total (postScore b) (postScore a)⟩

instance : IsTrans WPPost backlogLE :=
  ⟨fun _ _ _ h1 h2 => le_trans h2 h1⟩

/-- Model of `allPosts.sort(...)` at src/App.tsx:66-70: a stable sort by the
comparator, as specified for `Array.prototype.sort`. -/
def sortPosts (l : List WPPost) : List WPPost :=
  List.insertionSort backlogLE l

/-! ## Batched brief generation
(`generateImageBriefsAndAltsBatch`, src/services/aiService.ts:254-321) -/

/-- One `\x7bpostId, brief, altText\x7d` entry of a parsed batch reply. -/
structure BriefResult where
  postId : Nat
  brief : List Char
  altText : List Char
deriving DecidableEq

/-- Errors thrown out of the batch loop: the error propagated from the AI
call (including exhausted rate-limit retries), the no-valid-JSON error of
src/services/aiService.ts:299, and the malformed-JSON error built from a
`JSON.parse` failure at src/services/aiService.ts:309. -/
inductive BriefsError where
  | aiError (e : AIError)
  | noJsonInResponse
  | malformedJson (msg : List Char)
deriving DecidableEq

/-- The `BATCH_SIZE` constant (src/services/aiService.ts:251). -/
def BATCH_SIZE : Nat := 20

/-- Partition into consecutive chunks of `n`; `fuel` bounds the recursion and
is instantiated with the list length (each step removes at least one element
when `0 < n`). -/
def chunkify {α : Type} (n : Nat) : Nat → List α → List (List α)
  | _, [] => []
  | 0, _ => []
  | fuel + 1, l => l.take n :: chunkify n fuel (l.drop n)

/-- The batches `posts.slice(i, i + BATCH_SIZE)` traversed by the loop at
src/services/aiService.ts:264-265. -/
def batchesOf {α : Type} (n : Nat) (l : List α) : List (List α) :=
  chunkify n l.length l

/-- Loop of `generateImageBriefsAndAltsBatch` (src/services/aiService.ts:264-318).
`ai k` is the outcome of `retryableAIOperation(() => generateJsonText(...))`
for the `k`-th batch, and `parseJson` models `JSON.parse` on the extracted
string (its error is the `SyntaxError` message). Any failure is rethrown, so
it aborts the whole call; results of successful batches are concatenated. -/
def briefsLoop (ai : Nat → Except AIError (List Char))
    (parseJson : List Char → Except (List Char) (List BriefResult)) :
    List (List WPPost) → Nat → Except BriefsError (List BriefResult)
  | [], _ => .ok []
  | _ :: rest, k =>
    match ai k with
    | .error e => .error (.aiError e)
    | .ok responseText =>
      match extractJson responseText with
      | none => .error .noJsonInResponse
      | some jsonStr =>
        match parseJson jsonStr with
        | .error m => .error (.malformedJson m)
        | .ok batchResults =>
          match briefsLoop ai parseJson rest (k + 1) with
          | .error e => .error e
          | .ok restResults => .ok (batchResults ++ restResults)

/-- Model of `generateImageBriefsAndAltsBatch` (src/services/aiService.ts:254-321);
the progress callback and the fixed inter-batch delay do not affect the
returned value and are not modelled. -/
def generateImageBriefsAndAltsBatch (posts : List WPPost)
    (ai : Nat → Except AIError (List Char))
    (parseJson : List Char → Except (List Char) (List BriefResult)) :
    Except BriefsError (List BriefResult) :=
  briefsLoop ai parseJson (batchesOf BATCH_SIZE posts) 0

/-! ## Text generation routing (`generateText`, src/services/aiService.ts:194-222) -/

/-- The `TextAIProvider` enum (src/types.ts). -/
inductive TextAIProvider where
  | gemini
  | openai
  | groq
  | openrouter
deriving DecidableEq

/-- The fields of `AnalysisAIConfig` read by `generateText`. A key or model
that is JS-falsy (absent or the empty string) is modelled by `[]`. -/
structure AnalysisAIConfig where
  provider : TextAIProvider
  apiKey : List Char
  model : List Char
deriving DecidableEq

/-- Observable outcome of a `generateText` call: the returned text or thrown
error, and how many network requests were attempted. -/
structure TextGenOutcome where
  result : Except AIError (List Char)
  networkCalls : Nat

def geminiKeyMissingMsg : List Char :=
  "Google Gemini API Key is not configured in the environment.".data

def openAIKeyRequiredMsg : List Char := "OpenAI API key is required.".data

def groqKeyRequiredMsg : List Char := "Groq API key is required.".data

def groqModelRequiredMsg : List Char := "Groq model name is required.".data

def openRouterKeyRequiredMsg : List Char := "OpenRouter API key is required.".data

def openRouterModelRequiredMsg : List Char := "OpenRouter model name is required.".data

/-- Model of `generateText` (src/services/aiService.ts:194-222). `envApiKey`
is `process.env.API_KEY` consulted by `getGeminiClient` (lines 6-11), and
`net` is the outcome of the single network request the routed branch would
make. The OpenAI branch hardcodes the model `gpt-4-turbo` and performs no
model validation; only the Groq and OpenRouter branches throw
`model name is required` before calling the network. -/
def generateText (cfg : AnalysisAIConfig) (envApiKey : List Char)
    (net : Except AIError (List Char)) : TextGenOutcome :=
  match cfg.provider with
  | .gemini =>
    if envApiKey.isEmpty then ⟨.error (.generic geminiKeyMissingMsg), 0⟩
    else ⟨net, 1⟩
  | .openai =>
    if cfg.apiKey.isEmpty then ⟨.error (.generic openAIKeyRequiredMsg), 0⟩
    else ⟨net, 1⟩
  | .groq =>
    if cfg.apiKey.isEmpty then ⟨.error (.generic groqKeyRequiredMsg), 0⟩
    else if cfg.model.isEmpty then ⟨.error (.generic groqModelRequiredMsg), 0⟩
    else ⟨net, 1⟩
  | .openrouter =>
    if cfg.apiKey.isEmpty then ⟨.error (.generic openRouterKeyRequiredMsg), 0⟩
    else if cfg.model.isEmpty then ⟨.error (.generic openRouterModelRequiredMsg), 0⟩
    else ⟨net, 1⟩

/-! ## WordPress post count (`getTotalPosts`, src/unnamed/part_001:40-53) -/

/-- The parts of a `fetch` response observed by `getTotalPosts`:
`response.ok`, `response.status`, and the `X-WP-Total` header. -/
structure WPResponse where
  ok : Bool
  status : Nat
  xwpTotal : Option (List Char)
deriving DecidableEq

/-- Errors thrown by `getTotalPosts`: the missing-URL/username validation
error (src/unnamed/part_001:42), the non-ok-status error thrown by `wpFetch`
(src/unnamed/part_001:30-34), and a rejection of `fetch` itself. -/
inductive WPError where
  | missingParams
  | requestFailed (status : Nat)
  | networkError (msg : List Char)
deriving DecidableEq

/-- Model of `wpFetch` (src/unnamed/part_001:8-37) given the outcome of the
underlying `fetch` call: a rejected fetch propagates, a non-ok response is
turned into a thrown status error, an ok response is returned. -/
def wpFetch (outcome : Except (List Char) WPResponse) : Except WPError WPResponse :=
  match outcome with
  | .error m => .error (.networkError m)
  | .ok r => if r.ok then .ok r else .error (.requestFailed r.status)

/-- Model of JS `parseInt(s, 10)`: skip leading whitespace, optional sign,
then the leading digit run; `none` models `NaN`. -/
def jsParseInt (s : List Char) : Option Int :=
  let digitsVal : List Char → Option Nat := fun l =>
    match l.takeWhile Char.isDigit with
    | [] => none
    | run => some (run.foldl (fun acc c => acc * 10 + (c.toNat - 48)) 0)
  match s.dropWhile isJsWhitespace with
  | '-' :: rest => (digitsVal rest).map fun n => -(n : Int)
  | '+' :: rest => (digitsVal rest).map fun n => (n : Int)
  | t => (digitsVal t).map fun n => (n : Int)

/-- Model of `getTotalPosts` (src/unnamed/part_001:40-53). `outcome` is the
result of the underlying `fetch`; the returned value is the parsed
`X-WP-Total` header (an `Option Int`, with `none` modelling `NaN`), or 0 when
the header is absent. -/
def getTotalPosts (url user : List Char) (outcome : Except (List Char) WPResponse) :
    Except WPError (Option Int) :=
  if url.isEmpty || user.isEmpty then .error .missingParams
  else
    match wpFetch outcome with
    | .error e => .error e
    | .ok resp =>
      match resp.xwpTotal with
      | none => .ok (some 0)
      | some t => .ok (jsParseInt t)

/-! ## Helper lemmas about the retry loop -/

/-- Stepping the retry loop over a successful attempt. -/
theorem retryGo_ok_step {T : Type} (apiCall : Nat → Except AIError T)
    (d rem i dl : Nat) (last : Option AIError) (v : T)
    (h : apiCall i = .ok v) :
    retryGo apiCall d (rem + 1) i dl last = ⟨.ok v, i + 1, dl⟩ := by
  simp only [retryGo, h]

/-- Stepping the retry loop over a rate-limited attempt: the backoff delay
for attempt `i` is added and the loop continues. -/
theorem retryGo_rateLimit_step {T : Type} (apiCall : Nat → Except AIError T)
    (d rem i dl : Nat) (last : Option AIError) (e : AIError)
    (h : apiCall i = .error e) (hr : isRateLimitError e = true) :
    retryGo apiCall d (rem + 1) i dl last
      = retryGo apiCall d rem (i + 1) (dl + d * 2 ^ i) (some e) := by
  simp only [retryGo, h, hr, if_true]

/-- Stepping the retry loop over a non-rate-limit failure: the error is
rethrown at once, with no extra attempt and no extra delay. -/
theorem retryGo_other_step {T : Type} (apiCall : Nat → Except AIError T)
    (d rem i dl : Nat) (last : Option AIError) (e : AIError)
    (h : apiCall i = .error e) (hr : isRateLimitError e = false) :
    retryGo apiCall d (rem + 1) i dl last = ⟨.error e, i + 1, dl⟩ := by
  simp only [retryGo, h, hr, Bool.false_eq_true, if_false]

/-! ## Claim C1 -/

/-- Claim C1: with `retries = 3` and initial delay `d`, if the wrapped
operation fails with a rate-limit error on the first two attempts and
succeeds on the third, then exactly 3 attempts are made, the value of the third
attempt is returned, and the total backoff delay slept before the success is
`d * (1 + 2)`, i.e. `d * 2 ^ 0 + d * 2 ^ 1`. -/
theorem retry_rate_limit_backoff {T : Type} (apiCall : Nat → Except AIError T)
    (d : Nat) (e0 e1 : AIError) (v : T)
    (h0 : apiCall 0 = .error e0) (hr0 : isRateLimitError e0 = true)
    (h1 : apiCall 1 = .error e1) (hr1 : isRateLimitError e1 = true)
    (h2 : apiCall 2 = .ok v) :
    retryableAIOperation apiCall 3 d = ⟨.ok v, 3, d * (1 + 2)⟩ := by
  show retryGo apiCall d (2 + 1) 0 0 none = ⟨.ok v, 3, d * (1 + 2)⟩
  rw [retryGo_rateLimit_step apiCall d 2 0 0 none e0 h0 hr0]
  show retryGo apiCall d (1 + 1) 1 (0 + d * 2 ^ 0) (some e0) = ⟨.ok v, 3, d * (1 + 2)⟩
  rw [retryGo_rateLimit_step apiCall d 1 1 (0 + d * 2 ^ 0) (some e0) e1 h1 hr1]
  show retryGo apiCall d (0 + 1) 2 (0 + d * 2 ^ 0 + d * 2 ^ 1) (some e1)
      = ⟨.ok v, 3, d * (1 + 2)⟩
  rw [retryGo_ok_step apiCall d 0 2 (0 + d * 2 ^ 0 + d * 2 ^ 1) (some e1) v h2]
  have harith : 0 + d * 2 ^ 0 + d * 2 ^ 1 = d * (1 + 2) := by ring
  rw [harith]

/-- Concrete operation for the C1 witness: two 429 failures, then success. -/
def rateLimitErrExample : AIError :=
  .fetchError "API request failed with status 429".data 429

/-- Concrete operation for the C1 witness. -/
def retryOpExample : Nat → Except AIError Nat := fun i =>
  if i < 2 then .error rateLimitErrExample else .ok 42

/-- Witness for claim C1 at the source defaults (`initialDelay = 2000`). -/
theorem retry_rate_limit_backoff_witness :
    retryableAIOperation retryOpExample 3 2000 = ⟨.ok 42, 3, 2000 * (1 + 2)⟩ :=
  retry_rate_limit_backoff retryOpExample 2000 rateLimitErrExample rateLimitErrExample 42
    rfl (by decide) rfl (by decide) rfl

/-! ## Claim C2 -/

/-- Claim C2: a retry happens only on a rate-limit failure. If the first
attempt fails with an error that is not a rate-limit failure, that same error
is rethrown after exactly one attempt with zero backoff delay; moreover (the
quantified conjunct) from any attempt `i` of the loop, a non-rate-limit
failure is rethrown immediately, with no further attempt and no additional
delay beyond what earlier attempts accumulated. -/
theorem nonratelimit_error_rethrown {T : Type}
    (apiCall : Nat → Except AIError T) (retries d : Nat) (e : AIError)
    (hretries : 0 < retries)
    (h0 : apiCall 0 = .error e) (hnl : isRateLimitError e = false) :
    retryableAIOperation apiCall retries d = ⟨.error e, 1, 0⟩ ∧
    ∀ rem i dl last, apiCall i = .error e →
      retryGo apiCall d (rem + 1) i dl last = ⟨.error e, i + 1, dl⟩ := by
  constructor
  · obtain ⟨rem, rfl⟩ : ∃ rem, retries = rem + 1 :=
      ⟨retries - 1, (Nat.succ_pred_eq_of_pos hretries).symm⟩
    exact retryGo_other_step apiCall d rem 0 0 none e h0 hnl
  · intro rem i dl last hi
    exact retryGo_other_step apiCall d rem i dl last e hi hnl

/-- Concrete non-rate-limit error for the C2 witness. -/
def plainErrExample : AIError := .generic "Invalid API key".data

/-- Witness for claim C2: a non-rate-limit failure on the first attempt is
rethrown with one attempt and no delay. -/
theorem nonratelimit_error_rethrown_witness :
    retryableAIOperation (fun _ => (.error plainErrExample : Except AIError Nat)) 3 2000
      = ⟨.error plainErrExample, 1, 0⟩ :=
  (nonratelimit_error_rethrown (fun _ => .error plainErrExample) 3 2000
    plainErrExample (by decide) rfl (by decide)).1

/-! ## Claim C4 -/

/-- Absence of a character gives no index for it. -/
theorem findSub_single_none {c : Char} : ∀ {l : List Char}, c ∉ l → findSub l [c] = none
  | [], _ => by simp [findSub, List.isEmpty]
  | a :: rest, h => by
    have hne : (c == a) = false :=
      beq_eq_false_iff_ne.mpr fun hh => h (hh ▸ List.mem_cons_self a rest)
    have hrec : findSub rest [c] = none :=
      findSub_single_none fun hm => h (List.mem_cons_of_mem a hm)
    simp [findSub, List.isPrefixOf, hne, hrec]

/-- Counterexample to claim C4 as stated: in the input below a fenced code
block is present (with whitespace-only body, so the regex capture trims to
the empty string), yet `extractJson` does not return that trimmed body; the
falsy-capture check at src/services/aiService.ts:25 sends it to the bracket
fallback, which returns the JSON object outside the fence. -/
theorem extractjson_empty_fence_counterexample :
    fenceCapture "``` ```\x7b\"a\":1\x7d".data = some [] ∧
    extractJson "``` ```\x7b\"a\":1\x7d".data = some "\x7b\"a\":1\x7d".data := by
  decide

/-- Claim C4 as amended: `extractJson` returns the trimmed fence body when
the fence regex matches with a non-empty body; when the fence regex does not
match, or its captured body is empty, it returns the bracket fallback (the
trimmed substring from the first curly or square opening bracket to the last
closing one); an input with no fence match and no opening bracket yields
`none` (and the function is total, so no exception is possible). The last
two conjuncts instantiate the two examples named by the spec. -/
theorem extractjson_policy (t body : List Char) :
    (fenceCapture t = some body → body ≠ [] → extractJson t = some body) ∧
    (fenceCapture t = none ∨ fenceCapture t = some [] → extractJson t = bracketExtract t) ∧
    (fenceCapture t = none → '\x7b' ∉ t → '[' ∉ t → extractJson t = none) ∧
    extractJson "heres the data:\n```json\n\x7b\"a\":1\x7d\n```".data
      = some "\x7b\"a\":1\x7d".data ∧
    extractJson "no json markers in this reply".data = none := by
  refine ⟨?_, ?_, ?_, by decide, by decide⟩
  · intro hf hne
    cases body with
    | nil => exact absurd rfl hne
    | cons a as => simp [extractJson, hf, List.isEmpty]
  · intro hf
    cases hf with
    | inl h => simp [extractJson, h]
    | inr h => simp [extractJson, h, List.isEmpty]
  · intro hf hcb hsb
    have h1 : firstIdxOf t '\x7b' = none := findSub_single_none hcb
    have h2 : firstIdxOf t '[' = none := findSub_single_none hsb
    simp [extractJson, hf, bracketExtract, h1, h2]

/-- Witness for the amended claim C4, instantiating the fence conjunct at the
fenced example of the spec. -/
theorem extractjson_policy_witness :
    extractJson "heres the data:\n```json\n\x7b\"a\":1\x7d\n```".data
      = some "\x7b\"a\":1\x7d".data :=
  (extractjson_policy "heres the data:\n```json\n\x7b\"a\":1\x7d\n```".data
    "\x7b\"a\":1\x7d".data).1 (by decide) (by decide)

/-! ## Helper lemmas about the document model -/

theorem docParagraphs_nil : docParagraphs [] = [] := rfl

theorem docParagraphs_para (t : List Char) (d : Doc) :
    docParagraphs (.para t :: d) = t :: docParagraphs d := rfl

theorem docParagraphs_raw (s : List Char) (d : Doc) :
    docParagraphs (.raw s :: d) = docParagraphs d := rfl

theorem docParagraphs_marker (d : Doc) :
    docParagraphs (.marker :: d) = docParagraphs d := rfl

theorem countMarkers_nil : countMarkers [] = 0 := rfl

theorem countMarkers_cons (n : Node) (d : Doc) :
    countMarkers (n :: d) = n.markerCount + countMarkers d := by
  simp [countMarkers]

/-- Inserting after an existing paragraph adds exactly one marker node. -/
theorem countMarkers_insertAfterPara :
    ∀ (d : Doc) (i : Nat), i < (docParagraphs d).length →
      countMarkers (insertAfterPara d i) = countMarkers d + 1
  | [], i, h => by simp [docParagraphs_nil] at h
  | .para t :: rest, 0, _ => by
    simp [insertAfterPara, countMarkers_cons, Node.markerCount]
    omega
  | .para t :: rest, i + 1, h => by
    have h' : i < (docParagraphs rest).length := by
      simp [docParagraphs_para] at h; omega
    have ih := countMarkers_insertAfterPara rest i h'
    simp [insertAfterPara, countMarkers_cons, ih]
    omega
  | .raw s :: rest, i, h => by
    have h' : i < (docParagraphs rest).length := by
      simpa [docParagraphs_raw] using h
    have ih := countMarkers_insertAfterPara rest i h'
    simp [insertAfterPara, countMarkers_cons, ih]
    omega
  | .marker :: rest, i, h => by
    have h' : i < (docParagraphs rest).length := by
      simpa [docParagraphs_marker] using h
    have ih := countMarkers_insertAfterPara rest i h'
    simp [insertAfterPara, countMarkers_cons, ih]
    omega

/-- The heuristic inserts exactly one marker on every one of its branches. -/
theorem countMarkers_heuristic (d : Doc) :
    countMarkers (insertPlaceholderHeuristically d) = countMarkers d + 1 := by
  unfold insertPlaceholderHeuristically
  by_cases h2 : 2 < (docParagraphs d).length
  · rw [if_pos h2]
    exact countMarkers_insertAfterPara d 1 (by omega)
  · rw [if_neg h2]
    by_cases h1 : 1 < (docParagraphs d).length
    · rw [if_pos h1]
      exact countMarkers_insertAfterPara d 0 (by omega)
    · rw [if_neg h1]
      by_cases h0 : 0 < (docParagraphs d).length
      · rw [if_pos h0]
        exact countMarkers_insertAfterPara d ((docParagraphs d).length - 1) (by omega)
      · rw [if_neg h0]
        simp [countMarkers_cons, Node.markerCount]
        omega

/-! ## Claim C3 -/

/-- Paragraph text long enough to qualify for AI analysis (81 characters,
src/services/aiService.ts:404 keeps only lengths over 80). -/
def longParaText : List Char := List.replicate 81 'a'

/-- A post body with three qualifying paragraphs. -/
def threeParaDoc : Doc :=
  [.para longParaText, .para longParaText, .para longParaText]

/-- Evaluation of the code at the C3 failing input. First conjunct: a reply
with no integer is defaulted to the string `1` (src/services/aiService.ts:426)
and the marker lands after paragraph 1, as the claim says. Second conjunct:
an out-of-range reply (`7` against 3 paragraphs) takes the fallback index 1
of src/services/aiService.ts:429-431, which is the third-listed child --
the marker lands immediately after paragraph 2, not paragraph 1, although
the comment on that very line says the fallback is `after 1st paragraph`. -/
theorem placement_default_eval :
    (getContentWithImagePlaceholder (.ok "no digits in this reply".data) threeParaDoc).doc
      = [.para longParaText, .marker, .para longParaText, .para longParaText] ∧
    (getContentWithImagePlaceholder (.ok "7".data) threeParaDoc).doc
      = [.para longParaText, .para longParaText, .marker, .para longParaText] := by
  decide

/-! ## Claim C5 -/

/-- Paragraph text of exactly 80 characters: not under 80 characters, yet
discarded by the strict comparison at src/services/aiService.ts:404. -/
def para80Text : List Char := List.replicate 80 'a'

/-- A post body with three paragraphs of exactly 80 characters. -/
def threePara80Doc : Doc := [.para para80Text, .para para80Text, .para para80Text]

/-- Counterexample to claim C5 as stated: this post has at least 3
paragraphs, and at least 2 of the first 5 survive discarding those under 80
characters (all three have exactly 80), so by the claim the AI placement
request would be made; the code makes no AI request because its filter keeps
only paragraphs strictly longer than 80 characters. -/
theorem qualifying_boundary_counterexample :
    3 ≤ (docParagraphs threePara80Doc).length ∧
    2 ≤ ((((docParagraphs threePara80Doc).take 5).map trimChars).filter
      fun t => 80 ≤ t.length).length ∧
    (getContentWithImagePlaceholder (.ok "2".data) threePara80Doc).aiCalled = false := by
  decide

/-- Claim C5 as amended: `getContentWithImagePlaceholder` skips the AI and
applies the heuristic when the content has fewer than 3 paragraphs; otherwise
it considers only the first 5 paragraphs, discards any of 80 characters or
fewer (keeping only those strictly longer than 80), falls back to the
heuristic with no AI request when fewer than 2 qualifying paragraphs remain,
and issues the AI placement request otherwise. -/
theorem placement_fallback_conditions (d : Doc) (ai : Except AIError (List Char)) :
    ((docParagraphs d).length < 3 →
      getContentWithImagePlaceholder ai d = ⟨insertPlaceholderHeuristically d, false⟩) ∧
    (3 ≤ (docParagraphs d).length →
      ((((docParagraphs d).take 5).map trimChars).filter
        fun t => 80 < t.length).length < 2 →
      getContentWithImagePlaceholder ai d = ⟨insertPlaceholderHeuristically d, false⟩) ∧
    (3 ≤ (docParagraphs d).length →
      2 ≤ ((((docParagraphs d).take 5).map trimChars).filter
        fun t => 80 < t.length).length →
      (getContentWithImagePlaceholder ai d).aiCalled = true) := by
  unfold getContentWithImagePlaceholder
  refine ⟨fun h => ?_, fun h3 hq => ?_, fun h3 hq => ?_⟩
  · rw [if_pos h]
  · rw [if_neg (by omega), if_pos hq]
  · rw [if_neg (by omega), if_neg (by omega)]
    cases ai with
    | error e => rfl
    | ok responseText =>
      dsimp only
      by_cases ht : placementTarget d responseText < (docParagraphs d).length
      · rw [if_pos ht]
      · rw [if_neg ht]

/-- Witness for the amended claim C5: a one-paragraph post takes the
heuristic with no AI request. -/
theorem placement_fallback_conditions_witness :
    getContentWithImagePlaceholder (.ok "2".data) [Node.para "hello".data]
      = ⟨insertPlaceholderHeuristically [Node.para "hello".data], false⟩ :=
  (placement_fallback_conditions [Node.para "hello".data] (.ok "2".data)).1 (by decide)

/-! ## Claim C6 -/

/-- Claim C6: for content with no pre-existing placement marker, every path
of the placement logic (heuristic direct call, AI-chosen index, defaulted
index, and every fallback) yields content with exactly one marker. -/
theorem single_marker_invariant (d : Doc) (ai : Except AIError (List Char))
    (h : countMarkers d = 0) :
    countMarkers (insertPlaceholderHeuristically d) = 1 ∧
    countMarkers (getContentWithImagePlaceholder ai d).doc = 1 := by
  have hheur : countMarkers (insertPlaceholderHeuristically d) = 1 := by
    rw [countMarkers_heuristic, h]
  refine ⟨hheur, ?_⟩
  unfold getContentWithImagePlaceholder
  by_cases h3 : (docParagraphs d).length < 3
  · rw [if_pos h3]; exact hheur
  · rw [if_neg h3]
    by_cases hq : ((((docParagraphs d).take 5).map trimChars).filter
        fun t => 80 < t.length).length < 2
    · rw [if_pos hq]; exact hheur
    · rw [if_neg hq]
      cases ai with
      | error e => exact hheur
      | ok responseText =>
        dsimp only
        by_cases ht : placementTarget d responseText < (docParagraphs d).length
        · rw [if_pos ht]
          show countMarkers (insertAfterPara d (placementTarget d responseText)) = 1
          rw [countMarkers_insertAfterPara d _ ht, h]
        · rw [if_neg ht]; exact hheur

/-- Witness for claim C6 at a concrete marker-free post body. -/
theorem single_marker_invariant_witness :
    countMarkers (insertPlaceholderHeuristically [Node.para "hi".data]) = 1 ∧
    countMarkers
      (getContentWithImagePlaceholder (.ok "2".data) [Node.para "hi".data]).doc = 1 :=
  single_marker_invariant [Node.para "hi".data] (.ok "2".data) (by decide)

/-! ## Claim C7 -/

/-- A post with no featured image but 1001 embedded images. -/
def noFeaturedManyImages : WPPost := ⟨1, 0, 1001⟩

/-- A post with a featured image and no embedded images. -/
def featuredNoImages : WPPost := ⟨2, 5, 0⟩

/-- Counterexample to claim C7 as stated: the 1000-point bonus for a missing
featured image is not absolute. A zero-featured post with 1001 embedded
images scores 99, below the 100 scored by a featured post with none, so the
featured post is sorted first -- the priority of missing featured images does
not hold regardless of `imageCount`. -/
theorem backlog_sort_counterexample :
    sortPosts [noFeaturedManyImages, featuredNoImages]
      = [featuredNoImages, noFeaturedManyImages] ∧
    noFeaturedManyImages.featured_media = 0 ∧
    featuredNoImages.featured_media ≠ 0 := by
  decide

/-- Claim C7 as amended: provided every crawled post has at most 999 embedded
images (so the 1000-point bonus dominates), the sorted backlog never places a
post that has a featured image before one that lacks it, and orders any two
posts that both lack a featured image by ascending `imageCount`. -/
theorem backlog_sort_order (l : List WPPost)
    (hbound : ∀ p ∈ l, p.imageCount ≤ 999)
    (i j : Fin (sortPosts l).length) (hij : i < j) :
    (((sortPosts l).get i).featured_media ≠ 0 →
      ((sortPosts l).get j).featured_media ≠ 0) ∧
    (((sortPosts l).get i).featured_media = 0 →
      ((sortPosts l).get j).featured_media = 0 →
      ((sortPosts l).get i).imageCount ≤ ((sortPosts l).get j).imageCount) := by
  have hsorted : List.Sorted backlogLE (sortPosts l) :=
    List.sorted_insertionSort backlogLE l
  have hrel : backlogLE ((sortPosts l).get i) ((sortPosts l).get j) :=
    hsorted.rel_get_of_lt hij
  unfold backlogLE postScore at hrel
  constructor
  · intro hi
    by_contra hj'
    have hj : ((sortPosts l).get j).featured_media = 0 := hj'
    have hmem : (sortPosts l).get j ∈ l :=
      (List.perm_insertionSort backlogLE l).subset (List.get_mem _ _ _)
    have hcount : ((sortPosts l).get j).imageCount ≤ 999 := hbound _ hmem
    rw [if_pos hj, if_neg hi] at hrel
    omega
  · intro hi hj
    rw [if_pos hj, if_pos hi] at hrel
    omega

/-- Backlog of the spec example: two posts lacking a featured image (with 0
and 5 embedded images) and one featured post. -/
def exBacklog : List WPPost := [⟨1, 0, 0⟩, ⟨2, 5, 3⟩, ⟨3, 0, 5⟩]

/-- Witness for the amended claim C7 at the first two positions of the
sorted spec-example backlog. -/
theorem backlog_sort_order_witness :
    (((sortPosts exBacklog).get ⟨0, by decide⟩).featured_media ≠ 0 →
      ((sortPosts exBacklog).get ⟨1, by decide⟩).featured_media ≠ 0) ∧
    (((sortPosts exBacklog).get ⟨0, by decide⟩).featured_media = 0 →
      ((sortPosts exBacklog).get ⟨1, by decide⟩).featured_media = 0 →
      ((sortPosts exBacklog).get ⟨0, by decide⟩).imageCount ≤
        ((sortPosts exBacklog).get ⟨1, by decide⟩).imageCount) :=
  backlog_sort_order exBacklog (by decide) ⟨0, by decide⟩ ⟨1, by decide⟩ (by decide)

/-! ## Claim C8 -/

/-- Step equation of the batch loop when the AI call for the batch fails. -/
theorem briefsLoop_cons_aiError (ai : Nat → Except AIError (List Char))
    (parseJson : List Char → Except (List Char) (List BriefResult))
    (b : List WPPost) (rest : List (List WPPost)) (k : Nat) (e : AIError)
    (h : ai k = .error e) :
    briefsLoop ai parseJson (b :: rest) k = .error (.aiError e) := by
  simp only [briefsLoop, h]

/-- Step equation of the batch loop when the AI reply yields no JSON. -/
theorem briefsLoop_cons_noJson (ai : Nat → Except AIError (List Char))
    (parseJson : List Char → Except (List Char) (List BriefResult))
    (b : List WPPost) (rest : List (List WPPost)) (k : Nat) (resp : List Char)
    (h1 : ai k = .ok resp) (h2 : extractJson resp = none) :
    briefsLoop ai parseJson (b :: rest) k = .error .noJsonInResponse := by
  simp only [briefsLoop, h1, h2]

/-- Step equation of the batch loop when the extracted JSON fails to parse. -/
theorem briefsLoop_cons_badParse (ai : Nat → Except AIError (List Char))
    (parseJson : List Char → Except (List Char) (List BriefResult))
    (b : List WPPost) (rest : List (List WPPost)) (k : Nat)
    (resp jsonStr msg : List Char)
    (h1 : ai k = .ok resp) (h2 : extractJson resp = some jsonStr)
    (h3 : parseJson jsonStr = .error msg) :
    briefsLoop ai parseJson (b :: rest) k = .error (.malformedJson msg) := by
  simp only [briefsLoop, h1, h2, h3]

/-- Step equation of the batch loop on a fully successful batch. -/
theorem briefsLoop_cons_ok (ai : Nat → Except AIError (List Char))
    (parseJson : List Char → Except (List Char) (List BriefResult))
    (b : List WPPost) (rest : List (List WPPost)) (k : Nat)
    (resp jsonStr : List Char) (parsed : List BriefResult)
    (h1 : ai k = .ok resp) (h2 : extractJson resp = some jsonStr)
    (h3 : parseJson jsonStr = .ok parsed) :
    briefsLoop ai parseJson (b :: rest) k
      = match briefsLoop ai parseJson rest (k + 1) with
        | .error e => .error e
        | .ok restResults => .ok (parsed ++ restResults) := by
  simp only [briefsLoop, h1, h2, h3]

/-- Success of the batch loop requires every batch from index `k` on to have
a successful AI call, an extractable JSON string, and a successful parse. -/
theorem briefsLoop_ok_all (ai : Nat → Except AIError (List Char))
    (parseJson : List Char → Except (List Char) (List BriefResult)) :
    ∀ (bs : List (List WPPost)) (k : Nat) (rs : List BriefResult),
      briefsLoop ai parseJson bs k = .ok rs →
      ∀ m, m < bs.length →
        ∃ resp jsonStr parsed, ai (k + m) = .ok resp ∧
          extractJson resp = some jsonStr ∧ parseJson jsonStr = .ok parsed
  | [], _, _, _, m, hm => absurd hm (by simp)
  | b :: rest, k, rs, hok, m, hm => by
    cases hai : ai k with
    | error e =>
      rw [briefsLoop_cons_aiError ai parseJson b rest k e hai] at hok
      exact Except.noConfusion hok
    | ok resp =>
      cases hex : extractJson resp with
      | none =>
        rw [briefsLoop_cons_noJson ai parseJson b rest k resp hai hex] at hok
        exact Except.noConfusion hok
      | some jsonStr =>
        cases hp : parseJson jsonStr with
        | error msg =>
          rw [briefsLoop_cons_badParse ai parseJson b rest k resp jsonStr msg hai hex hp] at hok
          exact Except.noConfusion hok
        | ok parsed =>
          rw [briefsLoop_cons_ok ai parseJson b rest k resp jsonStr parsed hai hex hp] at hok
          cases hrest : briefsLoop ai parseJson rest (k + 1) with
          | error e =>
            rw [hrest] at hok
            exact Except.noConfusion hok
          | ok rrs =>
            cases m with
            | zero => exact ⟨resp, jsonStr, parsed, by rw [Nat.add_zero]; exact hai, hex, hp⟩
            | succ m' =>
              have hm' : m' < rest.length := by
                simp only [List.length_cons] at hm; omega
              have ih := briefsLoop_ok_all ai parseJson rest (k + 1) rrs hrest m' hm'
              rw [show k + (m' + 1) = k + 1 + m' from by omega]
              exact ih

/-- Claim C8: whenever `generateImageBriefsAndAltsBatch` returns results at
all, every batch's AI request succeeded, its reply contained extractable
JSON, and that JSON parsed. Contrapositively, a batch whose AI request
ultimately fails, or whose reply yields no JSON, or whose JSON does not
parse, makes the whole call propagate an error, returning no brief/alt
results for the posts of that batch (nor any others) -- there is no
partial-batch salvage. -/
theorem batch_failure_propagates (posts : List WPPost)
    (ai : Nat → Except AIError (List Char))
    (parseJson : List Char → Except (List Char) (List BriefResult))
    (results : List BriefResult)
    (hok : generateImageBriefsAndAltsBatch posts ai parseJson = .ok results) :
    ∀ k, k < (batchesOf BATCH_SIZE posts).length →
      ∃ resp jsonStr parsed, ai k = .ok resp ∧
        extractJson resp = some jsonStr ∧ parseJson jsonStr = .ok parsed := by
  intro k hk
  have h := briefsLoop_ok_all ai parseJson (batchesOf BATCH_SIZE posts) 0 results hok k hk
  simpa using h

/-- Posts for the C8 witness: 21 posts, hence two batches of size 20. -/
def exPosts : List WPPost := (List.range 21).map fun n => ⟨n, 0, 0⟩

/-- AI reply for the C8 witness. -/
def exResponse : List Char := "[\x7b\"postId\":1\x7d]".data

/-- Parsed batch result for the C8 witness. -/
def exBrief : List BriefResult := [⟨1, "brief".data, "alt".data⟩]

/-- AI outcome function for the C8 witness. -/
def exAi : Nat → Except AIError (List Char) := fun _ => .ok exResponse

/-- JSON parser outcome function for the C8 witness. -/
def exParse : List Char → Except (List Char) (List BriefResult) := fun _ => .ok exBrief

/-- Witness for claim C8: on an all-successful two-batch run, the first
batch's request, extraction and parse all succeeded. -/
theorem batch_failure_propagates_witness :
    ∃ resp jsonStr parsed, exAi 0 = .ok resp ∧
      extractJson resp = some jsonStr ∧ exParse jsonStr = .ok parsed :=
  batch_failure_propagates exPosts exAi exParse (exBrief ++ (exBrief ++ [])) rfl
    0 (by decide)

/-! ## Claim C9 -/

/-- Counterexample to claim C9 as stated: the OpenAI provider is routed
through the generic OpenAI-compatible chat-completion call (whose `model`
field is mandatory), yet `generateText` performs no model validation for it.
With an API key present and the model absent, the call proceeds to the
network (one request attempted, the hardcoded model `gpt-4-turbo` is used)
instead of failing with a validation error. -/
theorem openai_no_model_validation_counterexample :
    (generateText ⟨.openai, "sk-test-key".data, []⟩ [] (.ok "reply".data)).networkCalls
      = 1 ∧
    (generateText ⟨.openai, "sk-test-key".data, []⟩ [] (.ok "reply".data)).result
      = .ok "reply".data :=
  ⟨rfl, rfl⟩

/-- Claim C9 as amended: for the text providers whose configuration requires
a model name -- Groq and OpenRouter -- calling `generateText` with an API key
present but the model absent fails with the `model name is required`
validation error of that provider, with no network request attempted. -/
theorem model_required_validation (cfg : AnalysisAIConfig) (envKey : List Char)
    (net : Except AIError (List Char))
    (hprov : cfg.provider = .groq ∨ cfg.provider = .openrouter)
    (hkey : cfg.apiKey.isEmpty = false)
    (hmodel : cfg.model.isEmpty = true) :
    (generateText cfg envKey net).networkCalls = 0 ∧
    (generateText cfg envKey net).result = .error (.generic
      (if cfg.provider = .groq then groqModelRequiredMsg
        else openRouterModelRequiredMsg)) := by
  cases hprov with
  | inl h => simp [generateText, h, hkey, hmodel]
  | inr h => simp [generateText, h, hkey, hmodel]

/-- Witness for the amended claim C9: a Groq configuration with a key but no
model fails with the Groq validation message and zero network requests. -/
theorem model_required_validation_witness :
    (generateText ⟨.groq, "gsk-key".data, []⟩ [] (.ok "x".data)).networkCalls = 0 ∧
    (generateText ⟨.groq, "gsk-key".data, []⟩ [] (.ok "x".data)).result
      = .error (.generic
        (if (AnalysisAIConfig.mk .groq "gsk-key".data []).provider = .groq
          then groqModelRequiredMsg else openRouterModelRequiredMsg)) :=
  model_required_validation ⟨.groq, "gsk-key".data, []⟩ [] (.ok "x".data)
    (Or.inl rfl) rfl rfl

/-! ## Claim C10 -/

/-- Claim C10: when the post-count request succeeds (`response.ok`) but the
response carries no `X-WP-Total` header, `getTotalPosts` returns 0 rather
than raising; and (second conjunct) with a non-empty URL and username it
raises only when the underlying request itself fails -- either the fetch
rejected or the response was not ok. -/
theorem totalposts_missing_header (url user : List Char) (resp : WPResponse)
    (hu : url.isEmpty = false) (hn : user.isEmpty = false)
    (hok : resp.ok = true) (hh : resp.xwpTotal = none) :
    getTotalPosts url user (.ok resp) = .ok (some 0) ∧
    (∀ (outcome : Except (List Char) WPResponse) (e : WPError),
      getTotalPosts url user outcome = .error e →
        (∃ m, outcome = .error m) ∨ ∃ r, outcome = .ok r ∧ r.ok = false) := by
  constructor
  · simp [getTotalPosts, wpFetch, hu, hn, hok, hh]
  · intro outcome e herr
    cases outcome with
    | error m => exact Or.inl ⟨m, rfl⟩
    | ok r =>
      refine Or.inr ⟨r, rfl, ?_⟩
      cases hrok : r.ok with
      | false => rfl
      | true =>
        rw [getTotalPosts, if_neg (by simp [hu, hn])] at herr
        simp only [wpFetch, hrok, if_true] at herr
        cases hxw : r.xwpTotal with
        | none => rw [hxw] at herr; exact Except.noConfusion herr
        | some t => rw [hxw] at herr; exact Except.noConfusion herr

/-- Witness for claim C10 at a concrete configuration and response. -/
theorem totalposts_missing_header_witness :
    getTotalPosts "https://example.com".data "admin".data
      (.ok (WPResponse.mk true 200 none)) = .ok (some 0) :=
  (totalposts_missing_header "https://example.com".data "admin".data
    (WPResponse.mk true 200 none) rfl rfl rfl rfl).1

end AIImageEngine
